import Mathlib

/-
Verification of the forecasting pipeline of the Samfield Capital dashboard
(src/main.py): series extraction, sanitization, validation short-circuit,
model-cache training, prediction serving, data-loader fallback, and the
division guards of the metric cards and executive summary.

Timestamps and metric values are modelled as rationals; raw (pre-sanitize)
cells carry explicit null / numeric / non-numeric-text alternatives so that
pandas dropna, to_numeric(errors=coerce) and fillna(0) have faithful
counterparts.
-/

namespace ForecastDashboard

/-- A raw cell value before numeric coercion: a pandas NA, a number, or a
non-numeric text that `to_numeric(errors=coerce)` would turn into NaN. -/
inductive RawValue where
  | null
  | num (q : ℚ)
  | text (s : String)
deriving DecidableEq

/-- A raw row of the two-column forecast frame: `ds` (possibly null
timestamp) and `y` (raw value). -/
structure RawPoint where
  ds : Option ℚ
  y : RawValue
deriving DecidableEq

/-- A clean series point: timestamp and numeric value. -/
structure Point where
  ds : ℚ
  y : ℚ
deriving DecidableEq

/-- Whether a raw value is an actual number. -/
def RawValue.isNum : RawValue → Bool
  | .num _ => true
  | _ => false

/-- Numeric reading of a raw value (0 for null / text, matching the
pipeline after coercion and fill). -/
def numVal : RawValue → ℚ
  | .num q => q
  | _ => 0

/-- Row filter of `dropna(subset=['ds', 'y'])` (src/main.py line 635):
keep a row iff both the timestamp and the value are non-null. -/
def keepRow (p : RawPoint) : Bool :=
  p.ds.isSome && decide (p.y ≠ RawValue.null)

/-- Value coercion of `pd.to_numeric(..., errors='coerce').fillna(0)`
(src/main.py line 636): numbers stay, anything unparseable becomes 0.0. -/
def coerceFill : RawValue → RawValue
  | .num q => .num q
  | _ => .num 0

/-- The sanitization step (src/main.py lines 635-636): drop rows with a
null timestamp or null value, then coerce the value column to numbers,
filling unparseable entries with 0. No re-sorting is performed. -/
def sanitize (s : List RawPoint) : List RawPoint :=
  (s.filter keepRow).map fun p => { p with y := coerceFill p.y }

/-- The timestamps present in a raw series, in row order. -/
def dsList (s : List RawPoint) : List ℚ :=
  s.filterMap RawPoint.ds

/-- A point is clean when its timestamp is present and its value is a
number. -/
def cleanPoint (p : RawPoint) : Bool :=
  p.ds.isSome && p.y.isNum

/-- Sum of the value column, as `forecast_data['y'].sum()` reads it
(src/main.py line 639). -/
def ySum (s : List RawPoint) : ℚ :=
  (s.map fun p => numVal p.y).sum

/-- Insert a key into a strictly sorted list of bucket keys, keeping it
sorted and duplicate-free. -/
def insertKey (k : ℚ) : List ℚ → List ℚ
  | [] => [k]
  | x :: xs => if k < x then k :: x :: xs else if k = x then x :: xs else x :: insertKey k xs

/-- The sorted, duplicate-free list of bucket keys of a table, as pandas
`groupby` produces (sorted ascending, one group per distinct key). -/
def sortedKeys (rows : List (ℚ × ℚ)) : List ℚ :=
  rows.foldr (fun r acc => insertKey r.1 acc) []

/-- Sum of the metric over the rows of one bucket. -/
def bucketSum (rows : List (ℚ × ℚ)) (k : ℚ) : ℚ :=
  ((rows.filter fun r => decide (r.1 = k)).map Prod.snd).sum

/-- The series extractor (src/main.py lines 140-144):
`data.groupby('Week')[metric].sum().reset_index()` renamed to (ds, y) —
group rows by week, sum the metric per bucket, sorted ascending by key. -/
def get_forecast_data (rows : List (ℚ × ℚ)) : List Point :=
  (sortedKeys rows).map fun k => ⟨k, bucketSum rows k⟩

/-- The fixed NeuralProphet hyperparameters (src/main.py line 667). -/
structure Hyper where
  n_changepoints : Nat
  yearly_seasonality : Bool
  weekly_seasonality : Bool
deriving DecidableEq

/-- `NeuralProphet(n_changepoints=10, yearly_seasonality=False,
weekly_seasonality=True)` (src/main.py line 667). -/
def defaultHyper : Hyper := ⟨10, false, true⟩

/-- Modelled from the spec: NeuralProphet's `fit` is external library code
not under src/; per §3 a TrainedModel is an opaque artifact bound to the
exact series it was fit on (by value) and the fixed hyperparameters. -/
structure TrainedModel where
  series : List RawPoint
  hyper : Hyper
deriving DecidableEq

/-- Modelled from the spec: `model.fit(forecast_data, freq='W')` is
external library code; training produces the artifact bound to its
inputs. -/
def train (s : List RawPoint) (h : Hyper) : TrainedModel := ⟨s, h⟩

/-- State of the model cache: stored entries keyed by (series,
hyperparameters), plus a counter of training computations performed. -/
structure CacheState where
  entries : List ((List RawPoint × Hyper) × TrainedModel)
  trainCount : Nat
deriving DecidableEq

/-- The cache at process start: empty, no trainings performed. -/
def emptyCache : CacheState := ⟨[], 0⟩

/-- Modelled from the spec: `@st.cache_resource` on `train_forecast_model`
(src/main.py lines 665-669) is external Streamlit machinery; per §4.3 it
is content-keyed memoization — look the (series, hyperparameters) key up
by structural equality, train and store only on a miss. -/
def get_or_train (s : List RawPoint) (h : Hyper) (c : CacheState) :
    TrainedModel × CacheState :=
  match c.entries.find? (fun e => decide (e.1 = (s, h))) with
  | some e => (e.2, c)
  | none => (train s h, ⟨((s, h), train s h) :: c.entries, c.trainCount + 1⟩)

/-- The warning shown when validation fails (src/main.py line 640),
naming the selected metric. -/
def warnMsg (metric : String) : String :=
  "No valid data available for forecasting " ++ metric ++
    ". Try selecting a different metric or adjust filters."

/-- Outcome of one pass of the forecasting section: halted at the
validation check with a warning, or proceeded to a trained model. -/
inductive PipelineOutcome where
  | halted (warning : String)
  | trained (m : TrainedModel)
deriving DecidableEq

/-- The validation-then-train path (src/main.py lines 635-641 and 672):
sanitize, then halt with a warning naming the metric when the cleaned
series is empty or its value sum is zero, else train the model. -/
def forecastPipeline (metric : String) (raw : List RawPoint) : PipelineOutcome :=
  let cleaned := sanitize raw
  if cleaned.isEmpty || decide (ySum cleaned = 0) then .halted (warnMsg metric)
  else .trained (train cleaned defaultHyper)

/-- Timestamp of the last point of a clean series (0 for the empty
series, which the pipeline never reaches). -/
def lastDs (s : List Point) : ℚ :=
  (s.map Point.ds).getLastD 0

/-- The next `n` weekly timestamps after `t` (7 days apart). -/
def futureWeeks (t : ℚ) : Nat → List ℚ
  | 0 => []
  | n + 1 => (t + 7) :: futureWeeks (t + 7) n

/-- Modelled from the spec: `model.make_future_dataframe(forecast_data,
periods=8)` (src/main.py line 673) is external library code; per §4.4 the
future frame covers the historical timestamps plus `periods` further
points at the same weekly cadence. -/
def make_future_dataframe (s : List Point) (periods : Nat) : List ℚ :=
  s.map Point.ds ++ futureWeeks (lastDs s) periods

/-- Modelled from the spec: `model.predict(future)` (src/main.py line
674) is external library code; per §4.4 it emits one fitted/predicted
value per future-frame timestamp, in order. The numeric predictor is
abstracted as `f`. -/
def predictSeries (f : ℚ → ℚ) (s : List Point) (horizon : Nat) : List Point :=
  (make_future_dataframe s horizon).map fun t => ⟨t, f t⟩

/-- One weekly step between consecutive points: the second timestamp is
exactly 7 days after the first. -/
def weeklyStep (p q : Point) : Prop := q.ds = p.ds + 7

instance : DecidableRel weeklyStep :=
  fun p q => inferInstanceAs (Decidable (q.ds = p.ds + 7))

/-- A table of the dashboard, abstracted to its column names and row
count. -/
structure Table where
  columns : List String
  rowCount : Nat
deriving DecidableEq

/-- Outcome of the remote HTTP fetch inside `load_hr_data`: a parsed
table, or any raised error (network failure, timeout, bad status). -/
inductive FetchResult where
  | ok (t : Table)
  | err (msg : String)
deriving DecidableEq

/-- The built-in dummy HR table (src/main.py lines 122-137): 14 fixed
columns, 4 rows. -/
def dummyHRTable : Table :=
  ⟨["Employee Name", "Department", "Joining Date", "Status", "Engagement Score",
    "Training Effectiveness", "Performance Rating", "Hiring Cost", "Internal Moves",
    "Overtime Hours", "Application Status", "Gender", "Application Date", "Hire Date"], 4⟩

/-- The data loader (src/main.py lines 102-137): return the remote
table when the fetch succeeds; on any exception fall back to the local
CSV when the file exists, else to the built-in dummy table. -/
def load_hr_data (remote : FetchResult) (localCsv : Option Table) : Table :=
  match remote with
  | .ok t => t
  | .err _ =>
    match localCsv with
    | some t => t
    | none => dummyHRTable

/-- Division that is defined only for a nonzero divisor; `none` marks a
division-by-zero that the source would have attempted. -/
def safeDiv (a b : ℚ) : Option ℚ :=
  if b = 0 then none else some (a / b)

/-- Python short-circuit `and` over a boolean guard and a possibly
failing test: the right operand is evaluated only when the guard holds. -/
def pyAnd (b : Bool) (x : Option Bool) : Option Bool :=
  if b then x else some false

/-- `current = data[metric].iloc[-1]` (src/main.py line 245). -/
def currentOf (values : List ℚ) : ℚ :=
  values.getLastD 0

/-- `previous = data[metric].iloc[-2] if len(data) > 1 else current`
(src/main.py line 246). -/
def previousOf (values : List ℚ) : ℚ :=
  if 1 < values.length then values.getD (values.length - 2) 0 else currentOf values

/-- The alert computation of `display_metric_with_target` (src/main.py
line 248): "Spike" when `previous and (change / previous > 0.25)`,
"Drop" when `previous and (change / previous < -0.25)`, else no alert;
Python's `and` short-circuits on a zero `previous`, so the division runs
only behind the nonzero guard. `none` would mark an attempted division
by zero. -/
def metricAlert (current previous : ℚ) : Option String :=
  (pyAnd (decide (previous ≠ 0))
      ((safeDiv (current - previous) previous).map fun r => decide ((1 : ℚ) / 4 < r))).bind
    fun spike =>
      if spike then some "Spike"
      else
        (pyAnd (decide (previous ≠ 0))
            ((safeDiv (current - previous) previous).map fun r =>
              decide (r < -((1 : ℚ) / 4)))).bind
          fun drop => if drop then some "Drop" else some ""

/-- Round to the nearest integer, ties to even (Python `round`). -/
def roundHE (q : ℚ) : ℤ :=
  let n := ⌊q⌋
  let r := q - n
  if r < 1 / 2 then n
  else if 1 / 2 < r then n + 1
  else if n % 2 = 0 then n else n + 1

/-- Python `round(x, 1)`: one decimal place, ties to even. -/
def round1 (q : ℚ) : ℚ :=
  (roundHE (10 * q) : ℚ) / 10

/-- The percent-change computation of the executive summary (src/main.py
line 461): `round((diff / prev_value) * 100, 1) if prev_value else 0` —
the division runs only behind the truthiness guard on `prev_value`. -/
def summaryPct (current prev : ℚ) : Option ℚ :=
  if prev ≠ 0 then (safeDiv (current - prev) prev).map fun r => round1 (r * 100)
  else some 0

/-- The DEBUG series builder from a given start timestamp: one point per
value, weekly cadence, every timestamp present and every value numeric
(src/main.py lines 627-630: `pd.date_range(..., periods=24, freq='W')`
with `np.random.randint(1000, 5000, 24)` values). -/
def debugRawFrom (t : ℚ) : List ℚ → List RawPoint
  | [] => []
  | v :: vs => ⟨some t, .num v⟩ :: debugRawFrom (t + 7) vs

/-- The DEBUG forecast series for a drawn value list. -/
def debugRaw (vals : List ℚ) : List RawPoint :=
  debugRawFrom 0 vals

/-- What the forecasting section renders: a chart, or the error banner
with the exception message and its diagnostic traceback text. -/
inductive SectionRender where
  | chart (points : List Point)
  | errorBanner (msg : String) (diagnostic : String)
deriving DecidableEq

/-- The error banner text (src/main.py line 687). -/
def failMsg (e : String) : String :=
  "Forecasting failed: " ++ e

/-- The try/except around training and prediction (src/main.py lines
671-689): any exception from either step is converted to an error banner
with the diagnostic text; only when both succeed is the chart drawn. -/
def forecastSection (tr : Except String TrainedModel)
    (pr : TrainedModel → Except String (List Point)) : SectionRender :=
  match tr with
  | .error e => .errorBanner (failMsg e) e
  | .ok m =>
    match pr m with
    | .error e => .errorBanner (failMsg e) e
    | .ok pts => .chart pts

/-- Concrete raw series whose timestamps are out of order (2 then 1). -/
def exUnsorted : List RawPoint :=
  [⟨some 2, .num 1⟩, ⟨some 1, .num 1⟩]

/-- Concrete raw series sorted ascending, with one null-value row. -/
def exSorted : List RawPoint :=
  [⟨some 1, .num 2⟩, ⟨some 3, RawValue.null⟩]

/-- Concrete grouped table: two rows in bucket 2, one in bucket 1. -/
def exRows : List (ℚ × ℚ) :=
  [(2, 5), (1, 3), (2, 4)]

/-- Every point produced by sanitize has a present timestamp and a
numeric value. -/
theorem sanitize_clean (s : List RawPoint) : ∀ p ∈ sanitize s, cleanPoint p = true := by
  intro p hp
  simp only [sanitize, List.mem_map, List.mem_filter] at hp
  obtain ⟨q, ⟨-, hkeep⟩, rfl⟩ := hp
  simp only [keepRow, Bool.and_eq_true] at hkeep
  simp only [cleanPoint, Bool.and_eq_true]
  refine ⟨hkeep.1, ?_⟩
  cases q.y <;> simp [coerceFill, RawValue.isNum]

/-- Sanitize leaves an already-clean series untouched. -/
theorem sanitize_eq_self_of_clean (s : List RawPoint)
    (h : ∀ p ∈ s, cleanPoint p = true) : sanitize s = s := by
  induction s with
  | nil => rfl
  | cons p ps ih =>
    have hp := h p (List.mem_cons_self _ _)
    simp only [cleanPoint, Bool.and_eq_true] at hp
    have hnum : ∃ q, p.y = RawValue.num q := by
      cases hy : p.y <;> simp [hy, RawValue.isNum] at hp ⊢
    obtain ⟨q, hq⟩ := hnum
    have hkeep : keepRow p = true := by
      simp [keepRow, hp.1, hq]
    have hcoerce : ({ p with y := coerceFill p.y } : RawPoint) = p := by
      cases p
      simp_all [coerceFill]
    simp only [sanitize, List.filter_cons, hkeep, if_true, List.map_cons, hcoerce]
    have := ih fun r hr => h r (List.mem_cons_of_mem _ hr)
    simpa [sanitize] using this

/-- The timestamps of a sanitized series are those of the rows it kept,
a sublist of the input's timestamps. -/
theorem dsList_sanitize_sublist (s : List RawPoint) :
    (dsList (sanitize s)).Sublist (dsList s) := by
  have heq : dsList (sanitize s) = dsList (s.filter keepRow) := by
    simp only [dsList, sanitize, List.filterMap_map]
    rfl
  rw [heq]
  exact (List.filter_sublist s).filterMap _

/-- C4 (counterexample): sanitize does not re-sort; on the descending
input `exUnsorted` the output timestamps stay out of ascending order, so
the claim's sort guarantee is false as stated. -/
theorem C4_counterexample_unsorted :
    ¬ (dsList (sanitize exUnsorted)).Pairwise (· ≤ ·) := by decide

/-- C4 (amended): every point of a sanitized series has a present
timestamp and a numeric value, and sanitize preserves ascending order —
the output is sorted ascending by timestamp whenever the input is, but
an unsorted input is not re-sorted. -/
theorem C4_sanitize_guarantees (s : List RawPoint) :
    (∀ p ∈ sanitize s, cleanPoint p = true) ∧
    ((dsList s).Pairwise (· ≤ ·) → (dsList (sanitize s)).Pairwise (· ≤ ·)) :=
  ⟨sanitize_clean s, fun h => h.sublist (dsList_sanitize_sublist s)⟩

/-- C4 witness: on the concrete sorted input `exSorted` the sanitized
output is clean and sorted ascending. -/
theorem C4_sanitize_guarantees_witness :
    (∀ p ∈ sanitize exSorted, cleanPoint p = true) ∧
    (dsList (sanitize exSorted)).Pairwise (· ≤ ·) :=
  ⟨(C4_sanitize_guarantees exSorted).1,
    (C4_sanitize_guarantees exSorted).2 (by decide)⟩

/-- C6: sanitize is idempotent — applying the drop/coerce/fill step
twice gives the same series as applying it once. -/
theorem C6_sanitize_idempotent (s : List RawPoint) :
    sanitize (sanitize s) = sanitize s :=
  sanitize_eq_self_of_clean _ (sanitize_clean s)

/-- C3: the pipeline halts at the validation check with the warning
naming the metric exactly when the sanitized series is empty or its
value sum is zero, and a model is trained only on a non-empty series
with nonzero sum. -/
theorem C3_validation_halts (metric : String) (raw : List RawPoint) :
    (forecastPipeline metric raw = .halted (warnMsg metric) ↔
      sanitize raw = [] ∨ ySum (sanitize raw) = 0) ∧
    (∀ m, forecastPipeline metric raw = .trained m →
      sanitize raw ≠ [] ∧ ySum (sanitize raw) ≠ 0 ∧
        m = train (sanitize raw) defaultHyper) := by
  unfold forecastPipeline
  by_cases hcond : sanitize raw = [] ∨ ySum (sanitize raw) = 0
  · have hb : ((sanitize raw).isEmpty || decide (ySum (sanitize raw) = 0)) = true := by
      rcases hcond with h | h <;> simp [h, List.isEmpty_iff]
    simp [hb, hcond]
  · push_neg at hcond
    have hb : ((sanitize raw).isEmpty || decide (ySum (sanitize raw) = 0)) = false := by
      simp [List.isEmpty_iff, hcond.1, hcond.2]
    simp [hb, hcond.1, hcond.2]

/-- C3 witness: on the empty input the pipeline halts with the warning
naming the metric. -/
theorem C3_validation_halts_witness :
    forecastPipeline "Revenue Closed" [] = .halted (warnMsg "Revenue Closed") :=
  (C3_validation_halts "Revenue Closed" []).1.mpr (Or.inl rfl)

/-- Every point of a DEBUG series has a present timestamp and a numeric
value. -/
theorem debugRawFrom_clean (vals : List ℚ) :
    ∀ t : ℚ, ∀ p ∈ debugRawFrom t vals, cleanPoint p = true := by
  induction vals with
  | nil => intro t p hp; simp [debugRawFrom] at hp
  | cons v vs ih =>
    intro t p hp
    simp only [debugRawFrom, List.mem_cons] at hp
    rcases hp with rfl | hp
    · simp [cleanPoint, RawValue.isNum]
    · exact ih _ p hp

/-- A DEBUG series has one point per drawn value. -/
theorem debugRawFrom_length (vals : List ℚ) :
    ∀ t : ℚ, (debugRawFrom t vals).length = vals.length := by
  induction vals with
  | nil => intro t; rfl
  | cons v vs ih => intro t; simp [debugRawFrom, ih]

/-- The value sum of a DEBUG series is the sum of the drawn values. -/
theorem ySum_debugRawFrom (vals : List ℚ) :
    ∀ t : ℚ, ySum (debugRawFrom t vals) = vals.sum := by
  induction vals with
  | nil => intro t; rfl
  | cons v vs ih => intro t; simp [debugRawFrom, ySum, numVal] at ih ⊢; simp [ih]

/-- A non-empty list of rationals that are all at least 1000 has a
strictly positive sum. -/
theorem sum_pos_of_lb (l : List ℚ) (hl : ∀ v ∈ l, (1000 : ℚ) ≤ v)
    (hne : l ≠ []) : 0 < l.sum := by
  cases l with
  | nil => exact absurd rfl hne
  | cons v vs =>
    have hv : (1000 : ℚ) ≤ v := hl v (List.mem_cons_self _ _)
    have hvs : 0 ≤ vs.sum :=
      List.sum_nonneg fun x hx =>
        le_trans (by norm_num) (hl x (List.mem_cons_of_mem _ hx))
    rw [List.sum_cons]
    exact add_pos_of_pos_of_nonneg (lt_of_lt_of_le (by norm_num) hv) hvs

/-- C10: a DEBUG series of 24 values all at least 1000 survives
sanitization with exactly 24 points and a strictly positive value sum,
so for every metric label the validation short-circuit is not taken and
the pipeline proceeds to training. -/
theorem C10_debug_valid (vals : List ℚ) (hlen : vals.length = 24)
    (hlow : ∀ v ∈ vals, (1000 : ℚ) ≤ v) :
    (sanitize (debugRaw vals)).length = 24 ∧
    0 < ySum (sanitize (debugRaw vals)) ∧
    ∀ metric, forecastPipeline metric (debugRaw vals) =
      .trained (train (debugRaw vals) defaultHyper) := by
  have hid : sanitize (debugRaw vals) = debugRaw vals :=
    sanitize_eq_self_of_clean _ (debugRawFrom_clean vals 0)
  have hlength : (debugRaw vals).length = 24 := by
    rw [debugRaw, debugRawFrom_length vals 0]; exact hlen
  have hnonnil : vals ≠ [] := by
    intro h; rw [h] at hlen; simp at hlen
  have hpos : 0 < ySum (debugRaw vals) := by
    rw [debugRaw, ySum_debugRawFrom vals 0]
    exact sum_pos_of_lb vals hlow hnonnil
  refine ⟨by rw [hid]; exact hlength, by rw [hid]; exact hpos, ?_⟩
  intro metric
  unfold forecastPipeline
  rw [hid]
  have hne2 : (debugRaw vals).isEmpty = false := by
    cases hd : debugRaw vals with
    | nil => rw [hd] at hlength; simp at hlength
    | cons a l => rfl
  have hb : ((debugRaw vals).isEmpty || decide (ySum (debugRaw vals) = 0)) = false := by
    simp [hne2, ne_of_gt hpos]
  simp [hb]

/-- C10 witness: the concrete DEBUG draw of 24 values all equal to 1000
passes validation and reaches training. -/
theorem C10_debug_valid_witness :
    (sanitize (debugRaw (List.replicate 24 (1000 : ℚ)))).length = 24 ∧
    0 < ySum (sanitize (debugRaw (List.replicate 24 (1000 : ℚ)))) ∧
    ∀ metric, forecastPipeline metric (debugRaw (List.replicate 24 (1000 : ℚ))) =
      .trained (train (debugRaw (List.replicate 24 (1000 : ℚ))) defaultHyper) :=
  C10_debug_valid _ (by simp)
    (fun v hv => by rw [(List.mem_replicate.mp hv).2])

/-- C2: starting from the empty cache, training twice on a structurally
identical series returns the same model artifact both times with exactly
one training computation, and a subsequent call with any different
series is a miss that performs a second training. -/
theorem C2_cache_memoizes (s s2 : List RawPoint) (h : Hyper) (hne : s2 ≠ s) :
    (get_or_train s h (get_or_train s h emptyCache).2).1 =
      (get_or_train s h emptyCache).1 ∧
    (get_or_train s h emptyCache).2.trainCount = 1 ∧
    (get_or_train s h (get_or_train s h emptyCache).2).2.trainCount = 1 ∧
    (get_or_train s2 h
        (get_or_train s h (get_or_train s h emptyCache).2).2).2.trainCount = 2 := by
  have h1 : get_or_train s h emptyCache =
      (train s h, ⟨[((s, h), train s h)], 1⟩) := rfl
  have hne2 : s ≠ s2 := fun hh => hne hh.symm
  have h2 : get_or_train s h (⟨[((s, h), train s h)], 1⟩ : CacheState) =
      (train s h, ⟨[((s, h), train s h)], 1⟩) := by
    unfold get_or_train
    simp [List.find?]
  have h3 : get_or_train s2 h (⟨[((s, h), train s h)], 1⟩ : CacheState) =
      (train s2 h, ⟨((s2, h), train s2 h) :: [((s, h), train s h)], 2⟩) := by
    unfold get_or_train
    simp [List.find?, Prod.ext_iff, hne2]
  simp [h1, h2, h3]

/-- C2 witness: with the concrete series `[]` and `exSorted` and the
fixed hyperparameters, repeated training on the same series reuses the
cached model with one training, and the changed series retrains. -/
theorem C2_cache_memoizes_witness :
    (get_or_train [] defaultHyper (get_or_train [] defaultHyper emptyCache).2).1 =
      (get_or_train [] defaultHyper emptyCache).1 ∧
    (get_or_train [] defaultHyper emptyCache).2.trainCount = 1 ∧
    (get_or_train [] defaultHyper
        (get_or_train [] defaultHyper emptyCache).2).2.trainCount = 1 ∧
    (get_or_train exSorted defaultHyper
        (get_or_train [] defaultHyper
          (get_or_train [] defaultHyper emptyCache).2).2).2.trainCount = 2 :=
  C2_cache_memoizes [] exSorted defaultHyper (by decide)

/-- C5: every failure of training or prediction is converted to the
error banner carrying the diagnostic text, and the chart is drawn
exactly when both steps succeed — no exception escapes the section. -/
theorem C5_errors_caught (tr : Except String TrainedModel)
    (pr : TrainedModel → Except String (List Point)) :
    (∀ e, tr = .error e → forecastSection tr pr = .errorBanner (failMsg e) e) ∧
    (∀ m e, tr = .ok m → pr m = .error e →
      forecastSection tr pr = .errorBanner (failMsg e) e) ∧
    (∀ m pts, tr = .ok m → pr m = .ok pts →
      forecastSection tr pr = .chart pts) := by
  refine ⟨?_, ?_, ?_⟩
  · rintro e rfl; rfl
  · rintro m e rfl hpr
    simp [forecastSection, hpr]
  · rintro m pts rfl hpr
    simp [forecastSection, hpr]

/-- C5 witness: a concrete training failure is rendered as the error
banner with its message. -/
theorem C5_errors_caught_witness :
    forecastSection (.error "fit diverged") (fun _ => .ok []) =
      .errorBanner (failMsg "fit diverged") "fit diverged" :=
  (C5_errors_caught (.error "fit diverged") (fun _ => .ok [])).1 "fit diverged" rfl

/-- C8: the loader returns the remote table on success, falls back to
the local CSV on any remote failure when the file exists, and otherwise
to the built-in dummy table of 4 rows — a remote failure never escapes. -/
theorem C8_loader_fallback (remote : FetchResult) (csv : Option Table) :
    (∀ t, remote = .ok t → load_hr_data remote csv = t) ∧
    (∀ m t, remote = .err m → csv = some t → load_hr_data remote csv = t) ∧
    (∀ m, remote = .err m → csv = none → load_hr_data remote csv = dummyHRTable) ∧
    dummyHRTable.rowCount = 4 := by
  refine ⟨?_, ?_, ?_, rfl⟩
  · rintro t rfl; rfl
  · rintro m t rfl rfl; rfl
  · rintro m rfl rfl; rfl

/-- C8 witness: a concrete remote timeout with no local CSV yields the
built-in 4-row dummy table. -/
theorem C8_loader_fallback_witness :
    load_hr_data (.err "timeout") none = dummyHRTable ∧
    dummyHRTable.rowCount = 4 :=
  ⟨(C8_loader_fallback (.err "timeout") none).2.2.1 "timeout" rfl rfl,
    (C8_loader_fallback (.err "timeout") none).2.2.2⟩

/-- C9: the week-over-week computations are division-safe — with fewer
than two rows the previous value defaults to the current one, the metric
alert always evaluates (never divides by a zero previous value, showing
no alert when it is zero), and the summary percent always evaluates
(reporting 0 when the previous value is zero). -/
theorem C9_division_guarded (values : List ℚ) (current previous : ℚ) :
    (values.length < 2 → previousOf values = currentOf values) ∧
    (metricAlert current previous).isSome = true ∧
    (previous = 0 → metricAlert current previous = some "") ∧
    (summaryPct current previous).isSome = true ∧
    (previous = 0 → summaryPct current previous = some 0) := by
  refine ⟨?_, ?_, ?_, ?_, ?_⟩
  · intro hlen
    rw [previousOf, if_neg]
    omega
  · by_cases hp : previous = 0
    · simp [metricAlert, pyAnd, hp]
    · simp [metricAlert, pyAnd, safeDiv, hp]
      split
      · rfl
      · split <;> rfl
  · intro hp
    simp [metricAlert, pyAnd, hp]
  · by_cases hp : previous = 0
    · simp [summaryPct, hp]
    · simp [summaryPct, safeDiv, hp]
  · intro hp
    simp [summaryPct, hp]

/-- C9 witness: with the single-row data `[5]` and a zero previous
value, the previous defaults to the current, no alert is shown and the
percent is 0 — both computations complete. -/
theorem C9_division_guarded_witness :
    previousOf [5] = currentOf [5] ∧
    (metricAlert 3 0).isSome = true ∧
    metricAlert 3 0 = some "" ∧
    (summaryPct 3 0).isSome = true ∧
    summaryPct 3 0 = some 0 :=
  ⟨(C9_division_guarded [5] 3 0).1 (by decide),
    (C9_division_guarded [5] 3 0).2.1,
    (C9_division_guarded [5] 3 0).2.2.1 rfl,
    (C9_division_guarded [5] 3 0).2.2.2.1,
    (C9_division_guarded [5] 3 0).2.2.2.2 rfl⟩

/-- Membership in an insertion: the inserted key or an original key. -/
theorem mem_insertKey (k m : ℚ) : ∀ l : List ℚ, m ∈ insertKey k l ↔ m = k ∨ m ∈ l := by
  intro l
  induction l with
  | nil => simp [insertKey]
  | cons x xs ih =>
    simp only [insertKey]
    split
    · simp [List.mem_cons]
    · split
      · rename_i heq
        subst heq
        simp [List.mem_cons]
      · simp [List.mem_cons, ih]
        tauto

/-- Inserting a key keeps the bucket-key list strictly sorted. -/
theorem insertKey_pairwise (k : ℚ) :
    ∀ l : List ℚ, l.Pairwise (· < ·) → (insertKey k l).Pairwise (· < ·) := by
  intro l
  induction l with
  | nil => intro _; simp [insertKey]
  | cons x xs ih =>
    intro hp
    rw [List.pairwise_cons] at hp
    obtain ⟨hx, hxs⟩ := hp
    simp only [insertKey]
    split
    · rename_i hlt
      refine List.Pairwise.cons ?_ (List.Pairwise.cons hx hxs)
      intro y hy
      rcases List.mem_cons.mp hy with rfl | hy
      · exact hlt
      · exact lt_trans hlt (hx y hy)
    · split
      · exact List.Pairwise.cons hx hxs
      · rename_i hnlt hneq
        have hxk : x < k := by
          rcases lt_trichotomy k x with hh | hh | hh
          · exact absurd hh hnlt
          · exact absurd hh hneq
          · exact hh
        refine List.Pairwise.cons ?_ (ih hxs)
        intro y hy
        rcases (mem_insertKey k y xs).mp hy with rfl | hy
        · exact hxk
        · exact hx y hy

/-- The bucket keys of a table are strictly sorted. -/
theorem sortedKeys_pairwise (rows : List (ℚ × ℚ)) :
    (sortedKeys rows).Pairwise (· < ·) := by
  induction rows with
  | nil => simp [sortedKeys]
  | cons r rs ih => exact insertKey_pairwise r.1 _ ih

/-- The bucket keys are exactly the time values occurring in the table. -/
theorem mem_sortedKeys (rows : List (ℚ × ℚ)) (k : ℚ) :
    k ∈ sortedKeys rows ↔ k ∈ rows.map Prod.fst := by
  induction rows with
  | nil => simp [sortedKeys]
  | cons r rs ih =>
    show k ∈ insertKey r.1 (sortedKeys rs) ↔ _
    rw [mem_insertKey]
    simp [ih]

/-- C7: the extracted series is strictly sorted ascending by timestamp
(hence unique timestamps), each point's value is the sum of the metric
over its bucket, and the timestamps are exactly the time values of the
input table. -/
theorem C7_extract_sorted_unique (rows : List (ℚ × ℚ)) :
    ((get_forecast_data rows).map Point.ds).Pairwise (· < ·) ∧
    (∀ p ∈ get_forecast_data rows, p.y = bucketSum rows p.ds) ∧
    (∀ k : ℚ, k ∈ (get_forecast_data rows).map Point.ds ↔ k ∈ rows.map Prod.fst) := by
  have hds : (get_forecast_data rows).map Point.ds = sortedKeys rows := by
    rw [get_forecast_data, List.map_map]
    exact List.map_id _
  refine ⟨?_, ?_, ?_⟩
  · rw [hds]; exact sortedKeys_pairwise rows
  · intro p hp
    simp only [get_forecast_data, List.mem_map] at hp
    obtain ⟨k, -, rfl⟩ := hp
    rfl
  · intro k
    rw [hds]
    exact mem_sortedKeys rows k

/-- C7 witness: on the concrete table `exRows` the output is strictly
sorted, bucket 2 sums its two rows to 9, and 2 is among the output
timestamps. -/
theorem C7_extract_sorted_unique_witness :
    ((get_forecast_data exRows).map Point.ds).Pairwise (· < ·) ∧
    Point.mk 2 9 ∈ get_forecast_data exRows ∧
    (Point.mk 2 9).y = bucketSum exRows (Point.mk 2 9).ds ∧
    ((2 : ℚ) ∈ (get_forecast_data exRows).map Point.ds ↔
      (2 : ℚ) ∈ exRows.map Prod.fst) := by
  have hval : get_forecast_data exRows = [⟨1, 3⟩, ⟨2, 9⟩] := by
    norm_num [get_forecast_data, sortedKeys, insertKey, exRows, bucketSum]
  have hmem : Point.mk 2 9 ∈ get_forecast_data exRows := by
    rw [hval]; simp
  exact ⟨(C7_extract_sorted_unique exRows).1, hmem,
    (C7_extract_sorted_unique exRows).2.1 ⟨2, 9⟩ hmem,
    (C7_extract_sorted_unique exRows).2.2 2⟩

/-- The future frame adds one timestamp per requested period. -/
theorem futureWeeks_length (n : Nat) : ∀ t : ℚ, (futureWeeks t n).length = n := by
  induction n with
  | zero => intro t; rfl
  | succ n ih => intro t; simp [futureWeeks, ih]

/-- The first future timestamp is one week after the base. -/
theorem futureWeeks_head (n : Nat) (t : ℚ) (hn : n ≠ 0) :
    (futureWeeks t n).head? = some (t + 7) := by
  cases n with
  | zero => exact absurd rfl hn
  | succ n => rfl

/-- Consecutive future timestamps are one week apart. -/
theorem futureWeeks_chain (n : Nat) : ∀ t : ℚ,
    List.Chain' (fun a b : ℚ => b = a + 7) (futureWeeks t n) := by
  induction n with
  | zero => intro t; simp [futureWeeks]
  | succ n ih =>
    intro t
    rw [futureWeeks, List.chain'_cons']
    refine ⟨?_, ih (t + 7)⟩
    intro y hy
    cases n with
    | zero => simp [futureWeeks] at hy
    | succ m =>
      rw [futureWeeks_head _ _ (Nat.succ_ne_zero m)] at hy
      simp at hy
      simp [hy]

/-- C1: on a non-empty weekly-cadence series with nonzero value sum,
prediction with horizon 8 returns exactly `len(series) + 8` points whose
timestamps keep the weekly cadence with no gaps and are strictly
ascending — for any point predictor `f`. -/
theorem C1_predict_points (f : ℚ → ℚ) (s : List Point)
    (_hne : s ≠ []) (hcad : List.Chain' weeklyStep s)
    (_hsum : (s.map Point.y).sum ≠ 0) :
    (predictSeries f s 8).length = s.length + 8 ∧
    List.Chain' weeklyStep (predictSeries f s 8) ∧
    ((predictSeries f s 8).map Point.ds).Pairwise (· < ·) := by
  have hts : (predictSeries f s 8).map Point.ds = make_future_dataframe s 8 := by
    rw [predictSeries, List.map_map]
    exact List.map_id _
  have hlen : (predictSeries f s 8).length = s.length + 8 := by
    rw [predictSeries, List.length_map, make_future_dataframe, List.length_append,
      List.length_map, futureWeeks_length]
  have hchainQ : List.Chain' (fun a b : ℚ => b = a + 7) (make_future_dataframe s 8) := by
    rw [make_future_dataframe, List.chain'_append]
    refine ⟨(List.chain'_map Point.ds).mpr hcad, futureWeeks_chain 8 (lastDs s), ?_⟩
    intro x hx y hy
    rw [futureWeeks_head 8 (lastDs s) (by norm_num)] at hy
    rw [Option.mem_def] at hx hy
    have hx2 : lastDs s = x := by
      rw [lastDs, List.getLastD_eq_getLast?, hx]
      rfl
    rw [Option.some_inj] at hy
    rw [← hy, hx2]
  refine ⟨hlen, ?_, ?_⟩
  · rw [predictSeries, List.chain'_map]
    exact hchainQ
  · rw [hts]
    have hlt : List.Chain' (· < ·) (make_future_dataframe s 8) := by
      refine List.Chain'.imp ?_ hchainQ
      intro a b hab
      rw [hab]
      linarith
    exact List.chain'_iff_pairwise.mp hlt

/-- C1 witness: on the concrete one-point weekly series at timestamp 0
with value 5, prediction returns 9 points, weekly-spaced and strictly
ascending. -/
theorem C1_predict_points_witness :
    (predictSeries (fun _ => 0) [⟨0, 5⟩] 8).length = [(⟨0, 5⟩ : Point)].length + 8 ∧
    List.Chain' weeklyStep (predictSeries (fun _ => 0) [⟨0, 5⟩] 8) ∧
    ((predictSeries (fun _ => 0) [⟨0, 5⟩] 8).map Point.ds).Pairwise (· < ·) :=
  C1_predict_points (fun _ => 0) [⟨0, 5⟩] (by simp)
    (List.chain'_singleton _) (by norm_num)

end ForecastDashboard
